import Mathlib

/-!
# Verification of the candidate-finder Kubernetes query pipeline

Shallow embedding of the two query-processing pipelines of the repository:

* `LG` — `backend/app/features/k8s/k8s_langgraph_assistant.py`
  (class `K8sLangGraphAssistant`, the variant wired into the HTTP router;
  its executor shells out to the `kubectl` CLI via `subprocess.run`).
* `KA` — `backend/app/features/k8s/k8s_assistant.py`
  (class `K8sAssistant`, the variant that calls the typed Kubernetes
  API client directly).

External collaborators (the LLM completion call, the subprocess runs, the
Kubernetes API client together with the pure formatting of its returned
objects) are modelled as explicit behaviour parameters; fallible calls are
`Except`-valued.  Python `try/except` becomes a `match` on those values,
Python string truthiness (`if s:`) becomes a test against the empty
string, and a JSON value that is either absent or `null` is modelled as
`none` (the code's `setdefault` treats the two identically for every field
it touches).
-/

/-! ## String helpers (Python `in`, `startswith`, `endswith`, `split`) -/

/-- `charsPre p s`: the char list `p` is a prefix of `s`. -/
def charsPre : List Char → List Char → Bool
  | [], _ => true
  | _ :: _, [] => false
  | a :: as, b :: bs => a == b && charsPre as bs

/-- `charsSub p s`: the char list `p` occurs inside `s` (Python `in`). -/
def charsSub (p : List Char) : List Char → Bool
  | [] => charsPre p []
  | s@(_ :: rest) => charsPre p s || charsSub p rest

/-- Python `pat in s` (substring test). -/
def strContains (s pat : String) : Bool := charsSub pat.data s.data

/-- Python `s.startswith(pat)`. -/
def strStarts (s pat : String) : Bool := charsPre pat.data s.data

/-- Python `s.endswith(pat)`. -/
def strEnds (s pat : String) : Bool := charsPre pat.data.reverse s.data.reverse

/-- Python truthiness of an optional string: `None` and `""` are falsy. -/
def optTruthy (o : Option String) : Bool := o.getD "" != ""

/-- Python `str.split()` (split on whitespace runs, dropping empties):
worker carrying the current word, reversed. -/
def splitWsAux : List Char → List Char → List String
  | [], acc => if acc.isEmpty then [] else [String.mk acc.reverse]
  | c :: cs, acc =>
    if c.isWhitespace then
      if acc.isEmpty then splitWsAux cs [] else String.mk acc.reverse :: splitWsAux cs []
    else splitWsAux cs (c :: acc)

/-- Python `str.split()`. -/
def splitWs (s : String) : List String := splitWsAux s.data []

/-- Python `str.lower()` (character-wise; kernel-reducible, unlike
`String.toLower`, but the same function on every string). -/
def strLower (s : String) : String := String.mk (s.data.map Char.toLower)

/-- Python `str.strip()`. -/
def strTrim (s : String) : String :=
  String.mk (((s.data.dropWhile Char.isWhitespace).reverse.dropWhile Char.isWhitespace).reverse)

/-- Python `str.split(c)` for a one-character separator. -/
def splitCharAux (c : Char) : List Char → List Char → List String
  | [], acc => [String.mk acc.reverse]
  | x :: xs, acc =>
    if x == c then String.mk acc.reverse :: splitCharAux c xs []
    else splitCharAux c xs (x :: acc)

/-- Python `str.split(c)`. -/
def splitChar (c : Char) (s : String) : List String := splitCharAux c s.data []

/-- Python `sep.join(parts)`. -/
def strJoin (sep : String) : List String → String
  | [] => ""
  | [x] => x
  | x :: xs => x ++ sep ++ strJoin sep xs

/-! ## Shared lexicons (identical literals in both source files) -/

/-- `supported_resources` (both classes). -/
def supportedResources : List String :=
  ["pods", "services", "deployments", "configmaps",
   "ingress", "nodes", "namespaces", "persistentvolumes", "persistentvolumeclaims"]

/-- `banned_actions` (both classes). -/
def bannedActions : List String := ["delete", "edit", "patch", "apply", "create"]

/-! ## LG variant: data model (`K8sIntent`, `K8sState`, response dict)

The `messages` state field is initialised to `[]` and never read or written
by any node, so it is omitted from the embedding. -/

/-- Dataclass `K8sIntent` of `k8s_langgraph_assistant.py` (also the shape of
the dicts produced by both `_fallback_parse` implementations). -/
structure K8sIntent where
  resource_type : String
  action : String
  resource_name : Option String := none
  nspace : Option String := none
  additional_flags : List String := []
  deriving Repr, DecidableEq

/-- The JSON object extracted from the LLM response: any of the five keys
may be absent or `null`, both modelled as `none`. -/
structure IntentData where
  resource_type : Option String := none
  action : Option String := none
  resource_name : Option String := none
  nspace : Option String := none
  additional_flags : List String := []
  deriving Repr, DecidableEq

/-- `K8sState` TypedDict of `k8s_langgraph_assistant.py`. -/
structure K8sStateLG where
  query : String
  intent : Option K8sIntent := none
  security_check_passed : Bool := false
  kubectl_output : String := ""
  enhanced_response : String := ""
  error : Option String := none
  suggestion : Option String := none
  deriving Repr, DecidableEq

/-- The response dict returned by `process_query` /  `_format_response`;
a key that the returned dict does not carry is `none`. -/
structure ResponseLG where
  query : String
  parsed_intent : Option K8sIntent := none
  raw_response : Option String := none
  enhanced_response : Option String := none
  error : Option String := none
  suggestion : Option String := none
  success : Bool
  deriving Repr, DecidableEq

/-! ## LG variant: security check node -/

/-- `restricted_resources` of `K8sLangGraphAssistant`. -/
def restrictedResourcesLG : List String := ["secrets", "roles", "clusterroles"]

/-- Security-warning message of `_security_check_node` (LG). -/
def lgSecurityWarning (b : String) : String :=
  "🚫 Security Warning: '" ++ b ++ "' operations are not allowed for safety reasons."

/-- Access-denied message of `_security_check_node` (LG). -/
def lgAccessDenied (r : String) : String :=
  "🔒 Access Denied: '" ++ r ++ "' resources are restricted for security reasons."

/-- First banned action occurring (case-insensitively) in the query. -/
def lgFirstBanned (q : String) : Option String :=
  bannedActions.find? (fun b => strContains (strLower q) b)

/-- First restricted resource token occurring in the query (LG lexicon). -/
def lgFirstRestricted (q : String) : Option String :=
  restrictedResourcesLG.find? (fun r => strContains (strLower q) r)

/-- `_security_check_node` of `K8sLangGraphAssistant`. -/
def securityCheckNodeLG (s : K8sStateLG) : K8sStateLG :=
  match lgFirstBanned s.query with
  | some b =>
    { s with error := some (lgSecurityWarning b),
             suggestion := some "You can only perform read-only operations like 'list', 'get', 'describe', and 'logs'." }
  | none =>
    match lgFirstRestricted s.query with
    | some r =>
      { s with error := some (lgAccessDenied r),
               suggestion := some "Try querying other resources like pods, services, deployments, configmaps, or ingress instead." }
    | none => { s with security_check_passed := true }

/-- `_security_check_router` (returns the literal edge labels). -/
def securityCheckRouterLG (s : K8sStateLG) : String :=
  if optTruthy s.error then "error" else "continue"

/-- `_parse_intent_router`. -/
def parseIntentRouterLG (s : K8sStateLG) : String :=
  if optTruthy s.error then "error" else "continue"

/-! ## LG variant: intent validation and fallback parsing -/

/-- The alias table of `_validate_intent` (LG); note it lacks the
`persistentvolume`/`persistentvolumeclaim` long-form entries the KA table has. -/
def resourceMapLG : List (String × String) :=
  [("pod", "pods"), ("svc", "services"), ("deploy", "deployments"),
   ("deployment", "deployments"), ("cm", "configmaps"),
   ("pv", "persistentvolumes"), ("pvc", "persistentvolumeclaims")]

/-- `resource_map.get(key, "pods")`. -/
def resourceMapLGGet (k : String) : String :=
  ((resourceMapLG.find? (fun p => p.1 == k)).map Prod.snd).getD "pods"

/-- `_validate_intent` of `K8sLangGraphAssistant`: fill defaults, re-run the
security checks on the parsed fields (raising = `Except.error`), then map
the resource type through the alias table. -/
def validateIntentLG (d : IntentData) : Except String K8sIntent :=
  let rt := d.resource_type.getD "pods"
  let act := d.action.getD "list"
  if restrictedResourcesLG.contains rt then
    Except.error ("Access denied to " ++ rt)
  else if bannedActions.contains act then
    Except.error ("Action " ++ act ++ " is not allowed")
  else
    let rt' := if supportedResources.contains rt then rt else resourceMapLGGet rt
    Except.ok { resource_type := rt', action := act, resource_name := d.resource_name,
                nspace := d.nspace, additional_flags := d.additional_flags }

/-- `_fallback_parse` of `K8sLangGraphAssistant` (rule-based, always leaves
`resource_name` and `namespace` unset). -/
def fallbackParseLG (query : String) : K8sIntent :=
  let ql := strLower query
  let act :=
    if strContains ql "logs" then "logs"
    else if strContains ql "describe" then "describe"
    else if strContains ql "get" || strContains ql "show" then "get"
    else "list"
  let rt :=
    if strContains ql "service" || strContains ql "svc" then "services"
    else if strContains ql "deployment" || strContains ql "deploy" then "deployments"
    else if strContains ql "configmap" || strContains ql "cm" then "configmaps"
    else if strContains ql "pv" && !(strContains ql "pvc") then "persistentvolumes"
    else if strContains ql "pvc" then "persistentvolumeclaims"
    else "pods"
  { resource_type := rt, action := act, resource_name := none,
    nspace := none, additional_flags := [] }

/-- `_parse_intent_node` of `K8sLangGraphAssistant`.  The LLM call plus JSON
extraction (`_parse_with_llm`) is a collaborator behaviour producing either
the extracted JSON object or an exception; any failure of the LLM path
(including a `_validate_intent` raise) falls through to `_fallback_parse`,
which is total, so the node's error branch is unreachable. -/
def parseIntentNodeLG (llm : Except String IntentData) (s : K8sStateLG) : K8sStateLG :=
  match llm with
  | Except.ok d =>
    match validateIntentLG d with
    | Except.ok i => { s with intent := some i }
    | Except.error _ => { s with intent := some (fallbackParseLG s.query) }
  | Except.error _ => { s with intent := some (fallbackParseLG s.query) }

/-! ## LG variant: resource-name resolution -/

/-- Outcome of the resolver's `subprocess.run` (`kubectl get <type> -o name`,
timeout 10): a completed process or a raised exception (timeout included). -/
inductive SubprocOutcome where
  | completed (returncode : Int) (stdout : String)
  | raised (msg : String)

/-- `_resolve_resource_name` of `K8sLangGraphAssistant`: skip short-circuit
on a missing name or a name longer than 20 characters, then return the
first listed resource containing the partial name case-insensitively. -/
def resolveResourceNameLG (rn : Option String) (rt : String) (ns : Option String)
    (runList : List String → SubprocOutcome) : Option String :=
  match rn with
  | none => none
  | some n =>
    if n == "" || n.length > 20 then rn
    else
      let cmd := ["kubectl", "get", rt, "-o", "name"] ++
        (match ns with | some x => if x != "" then ["-n", x] else [] | none => [])
      match runList cmd with
      | SubprocOutcome.raised _ => some n
      | SubprocOutcome.completed rc out =>
        if rc == 0 then
          let resources := ((splitChar '\n' (strTrim out)).filter (fun r => r != "")).map
            (fun r => (splitChar '/' r).getLastD r)
          match resources.find? (fun r => strContains (strLower r) (strLower n)) with
          | some r => some r
          | none => some n
        else some n

/-- `_resolve_resources_node` of `K8sLangGraphAssistant`; never sets an
error (`_resolve_resource_name` swallows its own exceptions). -/
def resolveResourcesNodeLG (runList : List String → SubprocOutcome)
    (s : K8sStateLG) : K8sStateLG :=
  match s.intent with
  | none => s
  | some i =>
    if optTruthy i.resource_name then
      let i' := { i with
        resource_name := resolveResourceNameLG i.resource_name i.resource_type i.nspace runList }
      { s with intent := some i' }
    else s

/-! ## LG variant: kubectl execution -/

/-- `_build_kubectl_command`: `Except.error` is the `ValueError` raised for
`logs` without a resource name. -/
def buildKubectlCommandLG (i : K8sIntent) : Except String (List String) :=
  let withNs (cmd : List String) : List String :=
    (cmd ++ (match i.nspace with
             | some x => if x != "" then ["-n", x] else []
             | none => [])) ++ i.additional_flags
  if i.action == "logs" then
    if optTruthy i.resource_name then
      Except.ok (withNs (["kubectl", "logs"] ++ [i.resource_name.getD ""]))
    else Except.error "Resource name required for logs"
  else if i.action == "list" || i.action == "get" then
    Except.ok (withNs (["kubectl", "get", i.resource_type] ++
      (if optTruthy i.resource_name then [i.resource_name.getD ""] else [])))
  else if i.action == "describe" then
    Except.ok (withNs (["kubectl", "describe", i.resource_type] ++
      (if optTruthy i.resource_name then [i.resource_name.getD ""] else [])))
  else Except.ok (withNs ["kubectl"])

/-- Outcome of the executor's `subprocess.run(cmd, timeout=30)`. -/
inductive ExecOutcome where
  | completed (returncode : Int) (stdout stderr : String)
  | timeout
  | raised (msg : String)

/-- `_execute_kubectl_node` of `K8sLangGraphAssistant`. -/
def executeKubectlNodeLG (runExec : List String → ExecOutcome) (s : K8sStateLG) : K8sStateLG :=
  match s.intent with
  | none =>
    { s with error := some "Command execution failed: No intent available for kubectl execution",
             suggestion := some "Please check your query syntax and try again." }
  | some i =>
    match buildKubectlCommandLG i with
    | Except.error m =>
      { s with error := some ("Command execution failed: " ++ m),
               suggestion := some "Please check your query syntax and try again." }
    | Except.ok cmd =>
      match runExec cmd with
      | ExecOutcome.completed rc out err =>
        if rc == 0 then { s with kubectl_output := (strTrim out) }
        else
          { s with error := some ("kubectl error: " ++
                     (if (strTrim err) == "" then "Unknown kubectl error" else (strTrim err))),
                   suggestion := some "Check if the resource exists and you have proper permissions." }
      | ExecOutcome.timeout =>
        { s with error := some "kubectl command timed out",
                 suggestion := some "The cluster may be unresponsive. Try again later." }
      | ExecOutcome.raised m =>
        { s with error := some ("Command execution failed: " ++ m),
                 suggestion := some "Please check your query syntax and try again." }

/-! ## LG variant: enhancement, error handling, formatting, workflow -/

/-- `_enhance_response_node`: skipped when there is no output or an error;
an LLM failure degrades to a fixed fallback string. -/
def enhanceResponseNodeLG (enh : Except String String) (s : K8sStateLG) : K8sStateLG :=
  if s.kubectl_output == "" || optTruthy s.error then s
  else
    match enh with
    | Except.ok e => { s with enhanced_response := (strTrim e) }
    | Except.error _ => { s with enhanced_response := "Raw kubectl output provided above." }

/-- `_error_handler_node`. -/
def errorHandlerNodeLG (s : K8sStateLG) : K8sStateLG :=
  if optTruthy s.error then s
  else { s with error := some "An unknown error occurred",
                suggestion := some "Please try rephrasing your query" }

/-- The compiled LangGraph workflow of `_create_workflow`, as the explicit
composition given by its edges.  The second component records whether the
run ended through the `error_handler` terminal node (`true`) or through the
normal `enhance_response → END` edge (`false`). -/
def runWorkflowLG (q : String) (llm : Except String IntentData)
    (runList : List String → SubprocOutcome) (runExec : List String → ExecOutcome)
    (enh : Except String String) : K8sStateLG × Bool :=
  let s0 : K8sStateLG := { query := q }
  let s1 := securityCheckNodeLG s0
  if securityCheckRouterLG s1 == "error" then (errorHandlerNodeLG s1, true)
  else
    let s2 := parseIntentNodeLG llm s1
    if parseIntentRouterLG s2 == "error" then (errorHandlerNodeLG s2, true)
    else
      let s3 := resolveResourcesNodeLG runList s2
      let s4 := executeKubectlNodeLG runExec s3
      let s5 := enhanceResponseNodeLG enh s4
      (s5, false)

/-- `_format_response` of `K8sLangGraphAssistant`. -/
def formatResponseLG (s : K8sStateLG) : ResponseLG :=
  if optTruthy s.error then
    { query := s.query, error := s.error, suggestion := s.suggestion, success := false }
  else
    { query := s.query, parsed_intent := s.intent, raw_response := some s.kubectl_output,
      enhanced_response := some s.enhanced_response, success := true }

/-- `process_query` of `K8sLangGraphAssistant` as a function of the workflow
invocation's outcome: the `try` body formats the final state, the `except`
branch produces the internal-error envelope. -/
def processQueryLGFrom (q : String) (wf : Except String (K8sStateLG × Bool)) : ResponseLG :=
  match wf with
  | Except.ok (s, _) => formatResponseLG s
  | Except.error e =>
    { query := q, error := some ("Internal error: " ++ e),
      suggestion := some "Please try rephrasing your query or contact support.", success := false }

/-- `process_query` of `K8sLangGraphAssistant`: the embedded workflow is a
total function, so the invocation always yields `Except.ok`. -/
def processQueryLG (q : String) (llm : Except String IntentData)
    (runList : List String → SubprocOutcome) (runExec : List String → ExecOutcome)
    (enh : Except String String) : ResponseLG :=
  processQueryLGFrom q (Except.ok (runWorkflowLG q llm runList runExec enh))

/-! ## KA variant (`k8s_assistant.py`): security gate

The source nests a loop over `restricted_patterns` (a dict of three
categories) inside a loop over its patterns; iterating the flattened
pattern list in the same order is the same computation.  The emoji
prefixes of the KA messages appear mojibake-encoded in the source file and
are copied as they appear there. -/

/-- The flattened `restricted_patterns` lexicon of `_security_check_node`
(KA), in its dict-and-list iteration order. -/
def restrictedPatternsKA : List String :=
  ["secret", "secrets",
   "role", "roles", "rolebinding", "rolebindings",
   "clusterrole", "clusterroles", "clusterrolebinding", "clusterrolebindings"]

/-- Security-warning message of the KA variant. -/
def kaSecurityWarning (b : String) : String :=
  "ðŸš« Security Warning: '" ++ b ++ "' operations are not allowed for safety reasons."

/-- Access-denied message of the KA `_security_check_node`. -/
def kaAccessDeniedQ (p : String) : String :=
  "ðŸ”’ Access Denied: '" ++ p ++ "' resources are restricted for security reasons."

/-- What the KA `_security_check_node` writes into the state: the `error`
string and the `security_check` verdict dict. -/
structure SecurityResultKA where
  error : Option String
  blocked : Bool
  reason : Option String
  deriving Repr, DecidableEq

/-- `_security_check_node` of `K8sAssistant`: banned actions first, then the
restricted-resource variants, all case-insensitive substring checks. -/
def securityCheckNodeKA (q : String) : SecurityResultKA :=
  match bannedActions.find? (fun b => strContains (strLower q) b) with
  | some b =>
    { error := some (kaSecurityWarning b), blocked := true,
      reason := some ("banned_action: " ++ b) }
  | none =>
    match restrictedPatternsKA.find? (fun p => strContains (strLower q) p) with
    | some p =>
      { error := some (kaAccessDeniedQ p), blocked := true,
        reason := some ("restricted_resource: " ++ p) }
    | none => { error := none, blocked := false, reason := none }

/-! ## KA variant: intent validation and the parse node's error handling -/

/-- `restricted_resource_types` of the KA `_validate_intent` (note: no
rolebinding/clusterrolebinding entries). -/
def restrictedResourceTypesKA : List String :=
  ["secrets", "secret", "roles", "role", "clusterroles", "clusterrole"]

/-- The alias table of the KA `_validate_intent`. -/
def resourceMapKA : List (String × String) :=
  [("pod", "pods"), ("svc", "services"), ("deploy", "deployments"),
   ("deployment", "deployments"), ("cm", "configmaps"),
   ("pv", "persistentvolumes"), ("persistentvolume", "persistentvolumes"),
   ("pvc", "persistentvolumeclaims"), ("persistentvolumeclaim", "persistentvolumeclaims")]

/-- `resource_map.get(key, "pods")` (KA). -/
def resourceMapKAGet (k : String) : String :=
  ((resourceMapKA.find? (fun p => p.1 == k)).map Prod.snd).getD "pods"

/-- `_validate_intent` of `K8sAssistant` (`Except.error` = `ValueError`). -/
def validateIntentKA (d : IntentData) : Except String K8sIntent :=
  let rt := d.resource_type.getD "pods"
  let act := d.action.getD "list"
  if restrictedResourceTypesKA.contains rt then
    Except.error (kaAccessDeniedQ rt)
  else if bannedActions.contains act then
    Except.error (kaSecurityWarning act)
  else
    let rt' := if supportedResources.contains rt then rt else resourceMapKAGet rt
    Except.ok { resource_type := rt', action := act, resource_name := d.resource_name,
                nspace := d.nspace, additional_flags := d.additional_flags }

/-- Outcome of the KA `_parse_intent` after a successful LLM call and JSON
extraction: either a validated/fallback intent, or the error envelope that
`_parse_intent` returns for a security `ValueError` (the envelope's fixed
`suggestion` string is dropped by `_parse_intent_node`, which copies only
the `error` value into the state). -/
inductive ParseOutcomeKA where
  | intent (i : K8sIntent)
  | errEnvelope (msg : String)
  deriving Repr, DecidableEq

/-! ## KA variant: the rule-based fallback parser (`_fallback_parse`)

The namespace regex stage uses five fixed patterns built from literals,
`\s+` and `(\w+)`; they are embedded with a small matcher specialised to
exactly those constructs.  In each of them every greedy class (`\s+`,
`\w+`) is followed by a construct that cannot consume a character of the
same class (a literal starting with a word character after `\s+`; a space,
a hyphen or the pattern end after `\w+`), so maximal munch without
backtracking computes the same match as Python `re.search`, and trying
successive start positions left to right gives `re.search`'s leftmost
match. -/

/-- `\w` (ASCII reading, which covers every literal the parser deals in). -/
def isWordChar (c : Char) : Bool := c.isAlphanum || c == '_'

/-- One element of the five namespace regexes. -/
inductive PatTok where
  | lit (cs : List Char)
  | ws
  | capWord
  | capWordHyphenWord

/-- Match a token sequence at the head of the input; returns the single
capture group (as chars) on success. -/
def matchToks : List PatTok → List Char → Option (List Char)
  | [], _ => some []
  | PatTok.lit l :: rest, cs =>
    if charsPre l cs then matchToks rest (cs.drop l.length) else none
  | PatTok.ws :: rest, cs =>
    let w := cs.takeWhile Char.isWhitespace
    if w.isEmpty then none else matchToks rest (cs.dropWhile Char.isWhitespace)
  | PatTok.capWord :: rest, cs =>
    let w := cs.takeWhile isWordChar
    if w.isEmpty then none
    else
      match matchToks rest (cs.dropWhile isWordChar) with
      | some _ => some w
      | none => none
  | PatTok.capWordHyphenWord :: rest, cs =>
    let w1 := cs.takeWhile isWordChar
    if w1.isEmpty then none
    else
      match cs.dropWhile isWordChar with
      | '-' :: cs2 =>
        let w2 := cs2.takeWhile isWordChar
        if w2.isEmpty then none
        else
          match matchToks rest (cs2.dropWhile isWordChar) with
          | some _ => some (w1 ++ '-' :: w2)
          | none => none
      | _ => none

/-- `re.search`: try the pattern at each start position, leftmost first. -/
def reSearch (toks : List PatTok) : List Char → Option (List Char)
  | [] => matchToks toks []
  | cs@(_ :: rest) =>
    match matchToks toks cs with
    | some w => some w
    | none => reSearch toks rest

/-- `re.search(pat, s)` returning the capture group as a string. -/
def reSearchStr (toks : List PatTok) (s : String) : Option String :=
  (reSearch toks s.data).map String.mk

/-- `in\s+(\w+)\s+namespace` -/
def nsPat1 : List PatTok := [PatTok.lit "in".data, PatTok.ws, PatTok.capWord, PatTok.ws, PatTok.lit "namespace".data]

/-- `namespace\s+(\w+)` -/
def nsPat2 : List PatTok := [PatTok.lit "namespace".data, PatTok.ws, PatTok.capWord]

/-- `in\s+namespace\s+(\w+)` -/
def nsPat3 : List PatTok := [PatTok.lit "in".data, PatTok.ws, PatTok.lit "namespace".data, PatTok.ws, PatTok.capWord]

/-- `pods\s+in\s+(\w+)` -/
def nsPat4 : List PatTok := [PatTok.lit "pods".data, PatTok.ws, PatTok.lit "in".data, PatTok.ws, PatTok.capWord]

/-- `in\s+(\w+-\w+)` -/
def nsPat5 : List PatTok := [PatTok.lit "in".data, PatTok.ws, PatTok.capWordHyphenWord]

/-- `common_namespaces` of the KA `_fallback_parse`. -/
def commonNamespaces : List String :=
  ["kube-system", "default", "monitoring", "ingress-nginx", "cert-manager", "kube-public"]

/-- Action extraction of the KA `_fallback_parse`. -/
def kaFallbackAction (ql : String) : String :=
  if strContains ql "logs" || strContains ql "log" then "logs"
  else if strContains ql "describe" || strContains ql "desc" || strContains ql "details" then "describe"
  else if strContains ql "get" || strContains ql "show" || strContains ql "find" then
    (if !(strContains ql "logs") then "get" else "logs")
  else if strContains ql "delete" then "delete"
  else "list"

/-- `resource_patterns` of the KA `_fallback_parse`, in dict order. -/
def kaResourcePatterns : List (String × List String) :=
  [("pods", ["pod", "pods"]),
   ("services", ["service", "services", "svc"]),
   ("deployments", ["deployment", "deployments", "deploy"]),
   ("configmaps", ["configmap", "configmaps", "cm"]),
   ("ingress", ["ingress", "ing"]),
   ("nodes", ["node", "nodes"]),
   ("namespaces", ["namespace", "namespaces", "ns"]),
   ("persistentvolumes", ["persistentvolume", "persistentvolumes", "pv"]),
   ("persistentvolumeclaims", ["persistentvolumeclaim", "persistentvolumeclaims", "pvc"])]

/-- Resource-type extraction of the KA `_fallback_parse`: first group with
any pattern occurring in the query, default `"pods"`. -/
def kaFallbackResourceType (ql : String) : String :=
  ((kaResourcePatterns.find? (fun rp => rp.2.any (fun p => strContains ql p))).map Prod.fst).getD "pods"

/-- Namespace stage 1: the `" in <ns>"` / `"in <ns>"` check, guarded by
`" in "` occurring in the query. -/
def kaFallbackNs1 (ql : String) : Option String :=
  if strContains ql " in " then
    commonNamespaces.find? (fun ns =>
      strContains ql (" in " ++ ns) || strContains ql ("in " ++ ns))
  else none

/-- Namespace stage 2: a known namespace appearing as a delimited token. -/
def kaFallbackNs2 (ql : String) : Option String :=
  commonNamespaces.find? (fun ns =>
    strContains ql ns &&
      (strContains ql (" " ++ ns ++ " ") || strEnds ql ns || strStarts ql ns))

/-- Namespace stage 3: the regex fallbacks, first pattern with a match. -/
def kaFallbackNs3 (ql : String) : Option String :=
  match reSearchStr nsPat1 ql with
  | some m => some m
  | none =>
    match reSearchStr nsPat2 ql with
    | some m => some m
    | none =>
      match reSearchStr nsPat3 ql with
      | some m => some m
      | none =>
        match reSearchStr nsPat4 ql with
        | some m => some m
        | none => reSearchStr nsPat5 ql

/-- Namespace extraction of the KA `_fallback_parse`. -/
def kaFallbackNamespace (ql : String) : Option String :=
  match kaFallbackNs1 ql with
  | some ns => some ns
  | none =>
    match kaFallbackNs2 ql with
    | some ns => some ns
    | none => kaFallbackNs3 ql

/-- Resource-name rule (a): token after `for`/`of` when the token two
positions later is `pod`/`service`/`deployment` and the candidate is not a
known namespace. -/
def kaNameRuleA : List String → Option String
  | w0 :: w1 :: w2 :: rest =>
    if ((strLower w0) == "for" || (strLower w0) == "of") &&
       !(commonNamespaces.contains (strLower w1)) &&
       ((strLower w2) == "pod" || (strLower w2) == "service" || (strLower w2) == "deployment") then
      some w1
    else kaNameRuleA (w1 :: w2 :: rest)
  | _ => none

/-- Stopword list of resource-name rule (b). -/
def kaNameStopwords : List String := ["the", "a", "an", "all", "me", "show"]

/-- Resource-name rule (b): token before a resource keyword (skipping
namespaces and stopwords), or any hyphenated token longer than 10
characters that is not a namespace.  The first argument carries the
previous word (`none` at index 0). -/
def kaNameRuleB : Option String → List String → Option String
  | _, [] => none
  | prev, w :: rest =>
    if ((strLower w) == "pod" || (strLower w) == "service" || (strLower w) == "deployment") && prev.isSome then
      match prev with
      | some c =>
        if !(commonNamespaces.contains (strLower c)) && !(kaNameStopwords.contains (strLower c)) then some c
        else kaNameRuleB (some w) rest
      | none => kaNameRuleB (some w) rest
    else if strContains w "-" && w.length > 10 then
      if !(commonNamespaces.contains (strLower w)) then some w
      else kaNameRuleB (some w) rest
    else kaNameRuleB (some w) rest

/-- Resource-name rule (d): token after `for` (used only when the query
contains `"name for"` and the earlier rules found nothing). -/
def kaNameRuleD : List String → Option String
  | w0 :: w1 :: rest =>
    if (strLower w0) == "for" && !(commonNamespaces.contains (strLower w1)) then some w1
    else kaNameRuleD (w1 :: rest)
  | _ => none

/-- Rules (a), (b), (d) in order, on `words = query.split()` (original
case; comparisons lowercase as in the source). -/
def kaFallbackNameRules (query ql : String) : Option String :=
  let words := splitWs query
  match kaNameRuleA words with
  | some n => some n
  | none =>
    match kaNameRuleB none words with
    | some n => some n
    | none => if strContains ql "name for" then kaNameRuleD words else none

/-- Resource-name extraction of the KA `_fallback_parse`: skipped entirely
when the namespace was bound through an `" in <namespace>"` construct. -/
def kaFallbackResourceName (query ql : String) (ns : Option String) : Option String :=
  match ns with
  | some n =>
    if strContains ql (" in " ++ n) then none
    else kaFallbackNameRules query ql
  | none => kaFallbackNameRules query ql

/-- `_fallback_parse` of `K8sAssistant`. -/
def fallbackParseKA (query : String) : K8sIntent :=
  let ql := strLower query
  let ns := kaFallbackNamespace ql
  { resource_type := kaFallbackResourceType ql,
    action := kaFallbackAction ql,
    resource_name := kaFallbackResourceName query ql ns,
    nspace := ns,
    additional_flags := [] }

/-- The KA `_parse_intent` after the LLM call succeeded and a JSON object
was extracted: validate it; a security `ValueError` becomes the error
envelope, any other validation error falls back to `_fallback_parse`. -/
def parseIntentFromJsonKA (query : String) (d : IntentData) : ParseOutcomeKA :=
  match validateIntentKA d with
  | Except.ok i => ParseOutcomeKA.intent i
  | Except.error msg =>
    if strContains msg "Access Denied" || strContains msg "Security Warning" then
      ParseOutcomeKA.errEnvelope msg
    else ParseOutcomeKA.intent (fallbackParseKA query)

/-! ## KA variant: resource-name resolution (`_resolve_resource_names`) -/

/-- The intent dict as the KA resolver sees and mutates it: the base fields
plus the annotation keys it may add (`none`/`[]` = key absent). -/
structure IntentKA where
  resource_type : String
  action : String
  resource_name : Option String := none
  nspace : Option String := none
  additional_flags : List String := []
  resolved_from : Option String := none
  other_matches : List String := []
  resolution_note : Option String := none
  deriving Repr, DecidableEq

/-- Names matched by strategy 2 (`name.lower().startswith(partial_name)`). -/
def preMatchesKA (pname : String) (names : List String) : List String :=
  names.filter (fun nm => strStarts (strLower nm) pname)

/-- Names matched by strategy 3 (`partial_name in name.lower()`). -/
def subMatchesKA (pname : String) (names : List String) : List String :=
  names.filter (fun nm => strContains (strLower nm) pname)

/-- `fuzzy_patterns` of strategy 4, in dict order. -/
def fuzzyPatternsKA : List (String × List String) :=
  [("frontend", ["front", "fe", "ui", "web"]),
   ("backend", ["back", "be", "api", "server"]),
   ("database", ["db", "postgres", "mysql", "mongo"]),
   ("redis", ["cache", "session"]),
   ("nginx", ["proxy", "lb", "loadbalancer"])]

/-- Names matched by strategy 4: some category whose key equals the partial
name (or whose aliases contain it) occurs — key or alias — in the name. -/
def fuzzyMatchesKA (pname : String) (names : List String) : List String :=
  names.filter (fun nm =>
    fuzzyPatternsKA.any (fun kp =>
      (kp.1 == pname || kp.2.contains pname) &&
      (strContains (strLower nm) kp.1 || kp.2.any (fun p => strContains (strLower nm) p))))

/-- `min(matches, key=len)`: first element of minimal length. -/
def minByLenAux (cur : String) : List String → String
  | [] => cur
  | x :: xs => minByLenAux (if x.length < cur.length then x else cur) xs

/-- `min(matches, key=len)` (`none` on the empty list). -/
def minByLen : List String → Option String
  | [] => none
  | x :: xs => some (minByLenAux x xs)

/-- Result of the matching strategies of `_resolve_resource_names`. -/
inductive MatchResultKA where
  | exact (nm : String)
  | matched (best : String) (others : List String)
  | noMatch
  deriving Repr, DecidableEq

/-- Strategies 1–4 of `_resolve_resource_names`: exact match returns
immediately; otherwise the collected matches are the first non-empty of
the prefix-match, substring-match and fuzzy-match sets, the best match is
the first shortest among them, and `matches[1:5]` are the recorded other
matches. -/
def resolveMatchKA (pname : String) (names : List String) : MatchResultKA :=
  match names.find? (fun nm => (strLower nm) == pname) with
  | some nm => MatchResultKA.exact nm
  | none =>
    let pre := preMatchesKA pname names
    let sub := subMatchesKA pname names
    let fuz := fuzzyMatchesKA pname names
    let collected := if pre.isEmpty then (if sub.isEmpty then fuz else sub) else pre
    match minByLen collected with
    | none => MatchResultKA.noMatch
    | some best => MatchResultKA.matched best ((collected.drop 1).take 4)

/-- Resource types for which the KA resolver fetches a live name list; any
other type leaves `resource_names = []`. -/
def kaResolvableTypes : List String :=
  ["pods", "services", "deployments", "configmaps", "persistentvolumeclaims", "nodes", "namespaces"]

/-- The match phase of `_resolve_resource_names` once the skip heuristics
passed: fetch the name list (the typed API list call is the collaborator
`listNames`, whose `Except.error` is an `ApiException` reason) and apply
the matching strategies. -/
def resolveWithClusterKA (i : IntentKA) (pname : String)
    (listNames : String → Option String → Except String (List String)) : IntentKA :=
  let fetched :=
    if kaResolvableTypes.contains i.resource_type then listNames i.resource_type i.nspace
    else Except.ok []
  match fetched with
  | Except.error reason =>
    { i with resolution_note := some ("API error while resolving resource names: " ++ reason) }
  | Except.ok names =>
    if names.isEmpty then i
    else
      match resolveMatchKA pname names with
      | MatchResultKA.exact nm => { i with resource_name := some nm }
      | MatchResultKA.matched best others =>
        { i with resource_name := some best, resolved_from := some pname, other_matches := others }
      | MatchResultKA.noMatch =>
        { i with resolution_note := some ("No match found for '" ++ pname ++ "'. Available: " ++
            strJoin ", " (names.take 5)) }

/-- `_resolve_resource_names` of `K8sAssistant`: skip on a missing/empty
name, skip on a "clearly full" name (length > 20 with at least 3 hyphens),
otherwise run the match phase against the live name list. -/
def resolveResourceNamesKA (i : IntentKA)
    (listNames : String → Option String → Except String (List String)) : IntentKA :=
  match i.resource_name with
  | none => i
  | some n =>
    if n == "" then i
    else
      let pname := (strLower n)
      if pname.length > 20 && pname.data.count '-' >= 3 then i
      else resolveWithClusterKA i pname listNames

/-! ## KA variant: command execution (`_execute_kubectl`)

Each typed API call together with the pure formatting of its result
(`_format_*`) is one collaborator function returning the rendered text;
`Except.error` carries the `ApiException` reason.  The per-branch error
prefixes of the source remain in the embedding. -/

/-- The cluster collaborator of the KA executor. -/
structure KABackend where
  readPodLog : String → Option String → Nat → Except String String
  readPod : String → Option String → Except String String
  listPods : Option String → Except String String
  readService : String → Option String → Except String String
  listServices : Option String → Except String String
  readDeployment : String → Option String → Except String String
  listDeployments : Option String → Except String String
  readNode : String → Except String String
  listNodes : Unit → Except String String
  readNamespace : String → Except String String
  listNamespaces : Unit → Except String String
  describePod : String → Option String → Except String String
  describeService : String → Option String → Except String String
  describeDeployment : String → Option String → Except String String

/-- `_execute_kubectl` of `K8sAssistant`.  As in the source, the namespace
is read from the intent (`intent.get("namespace", "default")`: the key is
always present after parsing, so a `None` value passes through). -/
def executeKubectlKA (i : IntentKA) (b : KABackend) : String :=
  let rn := i.resource_name
  let ns := i.nspace
  if i.action == "logs" then
    if !(optTruthy rn) then "Error: Resource name required for logs command"
    else if i.resource_type != "pods" then "Error: Logs can only be retrieved for pods"
    else
      match b.readPodLog (rn.getD "") ns 100 with
      | Except.ok logs => logs
      | Except.error r => "Error retrieving logs: " ++ r
  else if i.action == "list" || i.action == "get" then
    if i.resource_type == "pods" then
      if optTruthy rn then
        match b.readPod (rn.getD "") ns with
        | Except.ok s => s
        | Except.error r => "Error getting pod: " ++ r
      else
        match b.listPods ns with
        | Except.ok s => s
        | Except.error r => "Error listing pods: " ++ r
    else if i.resource_type == "services" then
      if optTruthy rn then
        match b.readService (rn.getD "") ns with
        | Except.ok s => s
        | Except.error r => "Error getting service: " ++ r
      else
        match b.listServices ns with
        | Except.ok s => s
        | Except.error r => "Error listing services: " ++ r
    else if i.resource_type == "deployments" then
      if optTruthy rn then
        match b.readDeployment (rn.getD "") ns with
        | Except.ok s => s
        | Except.error r => "Error getting deployment: " ++ r
      else
        match b.listDeployments ns with
        | Except.ok s => s
        | Except.error r => "Error listing deployments: " ++ r
    else if i.resource_type == "nodes" then
      if optTruthy rn then
        match b.readNode (rn.getD "") with
        | Except.ok s => s
        | Except.error r => "Error getting node: " ++ r
      else
        match b.listNodes () with
        | Except.ok s => s
        | Except.error r => "Error listing nodes: " ++ r
    else if i.resource_type == "namespaces" then
      if optTruthy rn then
        match b.readNamespace (rn.getD "") with
        | Except.ok s => s
        | Except.error r => "Error getting namespace: " ++ r
      else
        match b.listNamespaces () with
        | Except.ok s => s
        | Except.error r => "Error listing namespaces: " ++ r
    else "Error: Resource type '" ++ i.resource_type ++ "' not yet supported"
  else if i.action == "describe" then
    if i.resource_type == "pods" && optTruthy rn then
      match b.describePod (rn.getD "") ns with
      | Except.ok s => s
      | Except.error r => "Error describing pod: " ++ r
    else if i.resource_type == "services" && optTruthy rn then
      match b.describeService (rn.getD "") ns with
      | Except.ok s => s
      | Except.error r => "Error describing service: " ++ r
    else if i.resource_type == "deployments" && optTruthy rn then
      match b.describeDeployment (rn.getD "") ns with
      | Except.ok s => s
      | Except.error r => "Error describing deployment: " ++ r
    else "Error: Describe requires a specific resource name"
  else "Error: Action '" ++ i.action ++ "' not supported"

/-! ## KA variant: `process_query` envelope -/

/-- The final workflow state fields the KA `process_query` reads (its
`error` field is a plain string, empty when unset). -/
structure K8sStateKA where
  query : String
  parsed_intent : Option IntentKA := none
  kubectl_result : String := ""
  enhanced_response : String := ""
  error : String := ""
  deriving Repr, DecidableEq

/-- The response dict of the KA `process_query`; `none` = key absent. -/
structure ResponseKA where
  query : String
  parsed_intent : Option IntentKA := none
  raw_response : Option String := none
  enhanced_response : Option String := none
  error : Option String := none
  suggestion : Option String := none
  success : Bool
  deriving Repr, DecidableEq

/-- `process_query` of `K8sAssistant` as a function of the workflow
invocation's outcome: the `try` body builds the envelope from the final
state (`success = not bool(error)`), the `except` branch returns only
`query`, `error` and `success` — in particular no `suggestion` key. -/
def processQueryKAFrom (q : String) (wf : Except String K8sStateKA) : ResponseKA :=
  match wf with
  | Except.ok r =>
    { query := q, parsed_intent := r.parsed_intent, raw_response := some r.kubectl_result,
      enhanced_response := some r.enhanced_response, error := some r.error,
      success := r.error == "" }
  | Except.error e =>
    { query := q, error := some ("An unexpected error occurred: " ++ e), success := false }

/-! ## Helper lemmas -/

/-- A string of nonzero length is not the empty string. -/
theorem ne_empty_of_length_pos (s : String) (h : 0 < s.length) : s ≠ "" := by
  intro he
  rw [he] at h
  exact Nat.lt_irrefl 0 h

/-- `a ++ b ++ c` is nonempty when `a` is. -/
theorem append3_ne_empty (a b c : String) (ha : 0 < a.length) : a ++ b ++ c ≠ "" := by
  apply ne_empty_of_length_pos
  rw [String.length_append, String.length_append]
  omega

/-- `optTruthy` holds of a present, nonempty string. -/
theorem optTruthy_some_of_ne (m : String) (h : m ≠ "") : optTruthy (some m) = true := by
  simp [optTruthy, h]

/-- The security-warning text is never empty (its literal prefix is not). -/
theorem lgSecurityWarning_ne_empty (b : String) : lgSecurityWarning b ≠ "" := by
  apply append3_ne_empty
  decide

/-- The access-denied text is never empty. -/
theorem lgAccessDenied_ne_empty (r : String) : lgAccessDenied r ≠ "" := by
  apply append3_ne_empty
  decide

/-- From an existence witness, `find?` returns some element satisfying the
predicate and belonging to the list. -/
theorem find?_of_exists {α : Type} (p : α → Bool) (l : List α)
    (h : ∃ x ∈ l, p x = true) :
    ∃ a, l.find? p = some a ∧ a ∈ l ∧ p a = true := by
  have hs : (l.find? p).isSome = true := List.find?_isSome.mpr h
  cases hf : l.find? p with
  | none => rw [hf] at hs; simp at hs
  | some a =>
    exact ⟨a, rfl, List.mem_of_find?_eq_some hf, List.find?_some hf⟩

/-- `minByLenAux` returns the accumulator or a list element. -/
theorem minByLenAux_mem (cur : String) (l : List String) :
    minByLenAux cur l = cur ∨ minByLenAux cur l ∈ l := by
  induction l generalizing cur with
  | nil => left; rfl
  | cons x xs ih =>
    rcases ih (if x.length < cur.length then x else cur) with h | h
    · rw [minByLenAux, h]
      by_cases hx : x.length < cur.length
      · right; simp [hx]
      · left; simp [hx]
    · right
      rw [minByLenAux]
      exact List.mem_cons_of_mem x h

/-- `minByLenAux` returns a string no longer than the accumulator. -/
theorem minByLenAux_le_cur (cur : String) (l : List String) :
    (minByLenAux cur l).length ≤ cur.length := by
  induction l generalizing cur with
  | nil => exact Nat.le_refl _
  | cons x xs ih =>
    rw [minByLenAux]
    by_cases hx : x.length < cur.length
    · calc (minByLenAux (if x.length < cur.length then x else cur) xs).length
          ≤ (if x.length < cur.length then x else cur).length := ih _
        _ ≤ cur.length := by simp [hx]; omega
    · calc (minByLenAux (if x.length < cur.length then x else cur) xs).length
          ≤ (if x.length < cur.length then x else cur).length := ih _
        _ ≤ cur.length := by simp [hx]

/-- `minByLenAux` returns a string no longer than any list element. -/
theorem minByLenAux_le_mem (cur : String) (l : List String) :
    ∀ x ∈ l, (minByLenAux cur l).length ≤ x.length := by
  induction l generalizing cur with
  | nil => intro x hx; cases hx
  | cons y ys ih =>
    intro x hx
    rw [minByLenAux]
    rcases List.mem_cons.mp hx with rfl | hxs
    · calc (minByLenAux (if x.length < cur.length then x else cur) ys).length
          ≤ (if x.length < cur.length then x else cur).length := minByLenAux_le_cur _ _
        _ ≤ x.length := by
            by_cases hc : x.length < cur.length
            · simp [hc]
            · simp [hc]; omega
    · exact ih _ x hxs

/-- On a nonempty list, `minByLen` returns a member of minimal length. -/
theorem minByLen_spec (l : List String) (h : l ≠ []) :
    ∃ m, minByLen l = some m ∧ m ∈ l ∧ ∀ x ∈ l, m.length ≤ x.length := by
  cases l with
  | nil => exact absurd rfl h
  | cons x xs =>
    refine ⟨minByLenAux x xs, rfl, ?_, ?_⟩
    · rcases minByLenAux_mem x xs with he | hm
      · rw [he]; exact List.mem_cons_self x xs
      · exact List.mem_cons_of_mem x hm
    · intro y hy
      rcases List.mem_cons.mp hy with rfl | hys
      · exact minByLenAux_le_cur _ _
      · exact minByLenAux_le_mem x xs y hys

/-! ## Concrete collaborator behaviours used in witnesses and
counterexamples -/

/-- An executor backend whose `subprocess.run` always exceeds the
30-second budget. -/
def execTimeoutB : List String → ExecOutcome := fun _ => ExecOutcome.timeout

/-- An executor backend that completes successfully with fixed output. -/
def execOkB : List String → ExecOutcome := fun _ => ExecOutcome.completed 0 "POD OUTPUT" ""

/-- A resolver subprocess that raises (resolution then degrades silently). -/
def listRaiseB : List String → SubprocOutcome := fun _ => SubprocOutcome.raised "cluster unreachable"

/-- A resolver subprocess listing the pods `backend-x` and `back`. -/
def listBackendB : List String → SubprocOutcome :=
  fun _ => SubprocOutcome.completed 0 "pod/backend-x\npod/back"

/-- A resolver subprocess listing one pod whose name extends a 21-character
partial name. -/
def listLongB : List String → SubprocOutcome :=
  fun _ => SubprocOutcome.completed 0 "pod/aaaaaaaaaaaaaaaaaaaaa-x"

/-- A KA cluster backend that reports the tail-line argument of a logs
call back in the log text and answers everything else with fixed text. -/
def kaProbeBackend : KABackend where
  readPodLog := fun _ _ tl => Except.ok (if tl == 100 then "tail lines = 100" else "tail lines other")
  readPod := fun _ _ => Except.ok "pod detail"
  listPods := fun _ => Except.ok "pods table"
  readService := fun _ _ => Except.ok "service detail"
  listServices := fun _ => Except.ok "services table"
  readDeployment := fun _ _ => Except.ok "deployment detail"
  listDeployments := fun _ => Except.ok "deployments table"
  readNode := fun _ => Except.ok "node detail"
  listNodes := fun _ => Except.ok "nodes table"
  readNamespace := fun _ => Except.ok "namespace detail"
  listNamespaces := fun _ => Except.ok "namespaces table"
  describePod := fun _ _ => Except.ok "pod description"
  describeService := fun _ _ => Except.ok "service description"
  describeDeployment := fun _ _ => Except.ok "deployment description"

/-! ## Pipeline lemmas (LG variant) -/

/-- When a banned action occurs in the query, the workflow goes from the
security node straight to the error handler. -/
theorem runWorkflowLG_banned (q b : String) (llm : Except String IntentData)
    (rL : List String → SubprocOutcome) (rE : List String → ExecOutcome)
    (enh : Except String String) (h : lgFirstBanned q = some b) :
    runWorkflowLG q llm rL rE enh =
      ({ query := q, error := some (lgSecurityWarning b),
         suggestion := some "You can only perform read-only operations like 'list', 'get', 'describe', and 'logs'." }, true) := by
  have hne : optTruthy (some (lgSecurityWarning b)) = true :=
    optTruthy_some_of_ne _ (lgSecurityWarning_ne_empty b)
  simp only [runWorkflowLG, securityCheckNodeLG, h, securityCheckRouterLG, hne,
    errorHandlerNodeLG, if_true]
  rfl

/-- When the query passes both lexical checks, the security node only sets
the passed flag. -/
theorem securityCheckNodeLG_pass (q : String)
    (hb : lgFirstBanned q = none) (hr : lgFirstRestricted q = none) :
    securityCheckNodeLG { query := q } = { query := q, security_check_passed := true } := by
  simp only [securityCheckNodeLG, hb, hr]

/-- The fallback parser never binds a resource name. -/
theorem fallbackParseLG_resource_name (q : String) :
    (fallbackParseLG q).resource_name = none := rfl

/-- The fallback parser never binds a namespace. -/
theorem fallbackParseLG_nspace (q : String) :
    (fallbackParseLG q).nspace = none := rfl

/-- Without "logs" in the query, the fallback parser's action is one of
`describe`, `get`, `list` — never `logs`. -/
theorem fallbackParseLG_action_ne_logs (q : String)
    (h : strContains (strLower q) "logs" = false) :
    (fallbackParseLG q).action ≠ "logs" := by
  show (if strContains (strLower q) "logs" then "logs"
        else if strContains (strLower q) "describe" then "describe"
        else if strContains (strLower q) "get" || strContains (strLower q) "show" then "get"
        else "list") ≠ "logs"
  rw [h]
  rw [if_neg (by simp)]
  by_cases h1 : strContains (strLower q) "describe" = true
  · rw [if_pos h1]; decide
  · rw [if_neg h1]
    by_cases h2 : (strContains (strLower q) "get" || strContains (strLower q) "show") = true
    · rw [if_pos h2]; decide
    · rw [if_neg h2]; decide

/-- Any intent whose action is not `logs` yields a kubectl command (the
builder raises only for `logs` without a name). -/
theorem buildKubectlCommandLG_ok (i : K8sIntent) (h : i.action ≠ "logs") :
    ∃ c, buildKubectlCommandLG i = Except.ok c := by
  have hb : (i.action == "logs") = false := beq_eq_false_iff_ne.mpr h
  unfold buildKubectlCommandLG
  rw [hb]
  simp only [Bool.false_eq_true, if_false]
  split
  · exact ⟨_, rfl⟩
  · split
    · exact ⟨_, rfl⟩
    · exact ⟨_, rfl⟩

/-- With a backend that always times out, executing any intent whose
action is not `logs` records the timeout error. -/
theorem executeKubectlNodeLG_timeout (s : K8sStateLG) (i : K8sIntent)
    (hs : s.intent = some i) (h : i.action ≠ "logs") :
    executeKubectlNodeLG execTimeoutB s =
      { s with error := some "kubectl command timed out",
               suggestion := some "The cluster may be unresponsive. Try again later." } := by
  obtain ⟨c, hc⟩ := buildKubectlCommandLG_ok i h
  simp only [executeKubectlNodeLG, hs, hc]
  rfl

/-- The resolve node never touches the error and only rewrites the
resource name inside the intent. -/
theorem resolveResourcesNodeLG_shape (rL : List String → SubprocOutcome)
    (s : K8sStateLG) (i : K8sIntent) (hs : s.intent = some i) :
    ∃ rn, resolveResourcesNodeLG rL s =
      { s with intent := some { i with resource_name := rn } } := by
  simp only [resolveResourcesNodeLG, hs]
  by_cases ht : optTruthy i.resource_name
  · rw [if_pos ht]
    exact ⟨_, rfl⟩
  · rw [if_neg ht]
    refine ⟨i.resource_name, ?_⟩
    have : { i with resource_name := i.resource_name } = i := rfl
    rw [this, ← hs]

/-! ## Claim C1 -/

/-- C1 (counterexample): in the live langgraph pipeline, a backend call
that exceeds the 30-second budget does NOT yield `success = true` with
error text in `raw_response`/`enhanced_response`; the query
`"list all pods"` (LLM path down, executor timing out) produces
`success = false` with the timeout text in the `error` field. -/
theorem c1_counterexample :
    processQueryLG "list all pods" (Except.error "llm down") listRaiseB execTimeoutB
        (Except.ok "enhanced") =
      { query := "list all pods", error := some "kubectl command timed out",
        suggestion := some "The cluster may be unresponsive. Try again later.",
        success := false } := by
  decide

/-- C1 (amended): for every query that passes the security gate and does
not mention "logs", when the LLM path is down and the executor's backend
call times out, the langgraph pipeline still completes through its normal
terminal (not the error handler) and returns an envelope — no exception —
but that envelope has `success = false` with the human-readable timeout
text in `error`/`suggestion` (the typed-API variant, by contrast, returns
execution-error text as data). -/
theorem c1_timeout_completes_lg (q : String) (rL : List String → SubprocOutcome)
    (enh : Except String String)
    (hb : ∀ b ∈ bannedActions, ¬ strContains (strLower q) b = true)
    (hr : ∀ r ∈ restrictedResourcesLG, ¬ strContains (strLower q) r = true)
    (hlogs : strContains (strLower q) "logs" = false) :
    processQueryLG q (Except.error "llm unavailable") rL execTimeoutB enh =
      { query := q, error := some "kubectl command timed out",
        suggestion := some "The cluster may be unresponsive. Try again later.",
        success := false } ∧
    (runWorkflowLG q (Except.error "llm unavailable") rL execTimeoutB enh).2 = false := by
  have hb' : lgFirstBanned q = none := List.find?_eq_none.mpr hb
  have hr' : lgFirstRestricted q = none := List.find?_eq_none.mpr hr
  have h1 := securityCheckNodeLG_pass q hb' hr'
  have hact := fallbackParseLG_action_ne_logs q hlogs
  have h2 : parseIntentNodeLG (Except.error "llm unavailable")
      { query := q, security_check_passed := true } =
      { query := q, intent := some (fallbackParseLG q), security_check_passed := true } := rfl
  have h3 : resolveResourcesNodeLG rL
      { query := q, intent := some (fallbackParseLG q), security_check_passed := true } =
      { query := q, intent := some (fallbackParseLG q), security_check_passed := true } := rfl
  have h4 := executeKubectlNodeLG_timeout
      { query := q, intent := some (fallbackParseLG q), security_check_passed := true }
      (fallbackParseLG q) rfl hact
  have hrt : securityCheckRouterLG { query := q, security_check_passed := true } = "continue" := rfl
  have hpt : parseIntentRouterLG
      { query := q, intent := some (fallbackParseLG q), security_check_passed := true } =
      "continue" := rfl
  simp only [processQueryLG, runWorkflowLG]
  rw [h1, hrt]
  rw [if_neg (by decide)]
  rw [h2, hpt]
  rw [if_neg (by decide)]
  rw [h3, h4]
  exact ⟨rfl, rfl⟩

/-- C1 (witness for the amended theorem at `"list all pods"`). -/
theorem c1_timeout_completes_lg_witness :
    processQueryLG "list all pods" (Except.error "llm unavailable") listRaiseB execTimeoutB
        (Except.ok "enhanced") =
      { query := "list all pods", error := some "kubectl command timed out",
        suggestion := some "The cluster may be unresponsive. Try again later.",
        success := false } ∧
    (runWorkflowLG "list all pods" (Except.error "llm unavailable") listRaiseB execTimeoutB
        (Except.ok "enhanced")).2 = false :=
  c1_timeout_completes_lg "list all pods" listRaiseB (Except.ok "enhanced")
    (by decide) (by decide) (by decide)

/-! ## Claim C2 -/

/-- C2: every query containing a banned-action token (case-insensitive
substring) makes the langgraph pipeline terminate through the
error-handler terminal with `success = false` and a security-warning
reason naming a matched verb, regardless of the rest of the query and of
every collaborator behaviour. -/
theorem c2_banned_query_blocked (q : String) (llm : Except String IntentData)
    (rL : List String → SubprocOutcome) (rE : List String → ExecOutcome)
    (enh : Except String String)
    (hb : ∃ b ∈ bannedActions, strContains (strLower q) b = true) :
    ∃ b ∈ bannedActions, strContains (strLower q) b = true ∧
      (runWorkflowLG q llm rL rE enh).2 = true ∧
      processQueryLG q llm rL rE enh =
        { query := q, error := some (lgSecurityWarning b),
          suggestion := some "You can only perform read-only operations like 'list', 'get', 'describe', and 'logs'.",
          success := false } := by
  obtain ⟨b, hfind, hmem, hp⟩ := find?_of_exists _ _ hb
  have hrun := runWorkflowLG_banned q b llm rL rE enh hfind
  refine ⟨b, hmem, hp, ?_, ?_⟩
  · rw [hrun]
  · unfold processQueryLG
    rw [hrun]
    show formatResponseLG _ = _
    have ht : optTruthy (some (lgSecurityWarning b)) = true :=
      optTruthy_some_of_ne _ (lgSecurityWarning_ne_empty b)
    simp only [formatResponseLG, ht, if_true]

/-- C2 (witness at the spec's scenario query `"delete pod backend"`). -/
theorem c2_banned_query_blocked_witness :
    ∃ b ∈ bannedActions, strContains (strLower "delete pod backend") b = true ∧
      (runWorkflowLG "delete pod backend" (Except.error "x") listRaiseB execOkB
        (Except.ok "e")).2 = true ∧
      processQueryLG "delete pod backend" (Except.error "x") listRaiseB execOkB
          (Except.ok "e") =
        { query := "delete pod backend", error := some (lgSecurityWarning b),
          suggestion := some "You can only perform read-only operations like 'list', 'get', 'describe', and 'logs'.",
          success := false } :=
  c2_banned_query_blocked "delete pod backend" (Except.error "x") listRaiseB execOkB
    (Except.ok "e") (by decide)

/-! ## Claim C3 -/

/-- C3 (counterexample): the live langgraph gate does not block the
singular variant `secret`: `"show me the secret"` contains the
restricted-lexicon token `secret`, yet `_security_check_node` passes it
(no error, check marked passed), because the LG lexicon holds only the
plural category names. -/
theorem c3_counterexample :
    strContains (strLower "show me the secret") "secret" = true ∧
    "secret" ∈ restrictedPatternsKA ∧
    securityCheckNodeLG { query := "show me the secret" } =
      { query := "show me the secret", security_check_passed := true } := by
  decide

/-- The access-denied text of the KA gate contains `Access Denied`
whatever the pattern (needed to reason about `_parse_intent`'s catch). -/
theorem charsPre_append (p a b : List Char) (h : charsPre p a = true) :
    charsPre p (a ++ b) = true := by
  induction p generalizing a with
  | nil => rfl
  | cons c cs ih =>
    cases a with
    | nil => simp [charsPre] at h
    | cons a0 as =>
      simp only [charsPre, Bool.and_eq_true] at h
      simp only [List.cons_append, charsPre, Bool.and_eq_true]
      exact ⟨h.1, ih as h.2⟩

/-- Substring occurrence survives appending on the right. -/
theorem charsSub_append_left (p a b : List Char) (h : charsSub p a = true) :
    charsSub p (a ++ b) = true := by
  induction a with
  | nil =>
    have hp : p = [] := by
      cases p with
      | nil => rfl
      | cons c cs => simp [charsSub, charsPre] at h
    subst hp
    cases b with
    | nil => rfl
    | cons b0 bs => simp [charsSub, charsPre]
  | cons a0 as ih =>
    simp only [charsSub, Bool.or_eq_true] at h
    simp only [List.cons_append, charsSub, Bool.or_eq_true]
    rcases h with h | h
    · exact Or.inl (charsPre_append p _ _ h)
    · exact Or.inr (ih h)

/-- `strContains` survives appending on the right. -/
theorem strContains_append_left (a b p : String) (h : strContains a p = true) :
    strContains (a ++ b) p = true := by
  unfold strContains at *
  rw [String.data_append]
  exact charsSub_append_left _ _ _ h

/-- The KA access-denied message always contains `"Access Denied"`. -/
theorem kaAccessDeniedQ_contains (rt : String) :
    strContains (kaAccessDeniedQ rt) "Access Denied" = true := by
  unfold kaAccessDeniedQ
  apply strContains_append_left
  apply strContains_append_left
  decide

/-- The KA security-warning message always contains `"Security Warning"`. -/
theorem kaSecurityWarning_contains (act : String) :
    strContains (kaSecurityWarning act) "Security Warning" = true := by
  unfold kaSecurityWarning
  apply strContains_append_left
  apply strContains_append_left
  decide

/-- C3 (amended): in the typed-API variant's gate, every query containing
any restricted-resource variant token — singulars, plurals, and the
binding forms — is blocked with an access-denied reason naming a matched
pattern, provided no banned-action token is present (the banned check runs
first); the langgraph variant's gate checks only the three plural category
names, so singular-only mentions pass it. -/
theorem c3_restricted_blocked_ka (q : String)
    (hb : ∀ b ∈ bannedActions, ¬ strContains (strLower q) b = true)
    (hr : ∃ p ∈ restrictedPatternsKA, strContains (strLower q) p = true) :
    ∃ p ∈ restrictedPatternsKA, strContains (strLower q) p = true ∧
      securityCheckNodeKA q =
        { error := some (kaAccessDeniedQ p), blocked := true,
          reason := some ("restricted_resource: " ++ p) } := by
  have hb' : bannedActions.find? (fun b => strContains (strLower q) b) = none :=
    List.find?_eq_none.mpr hb
  obtain ⟨p, hfind, hmem, hp⟩ := find?_of_exists _ _ hr
  refine ⟨p, hmem, hp, ?_⟩
  simp only [securityCheckNodeKA, hb', hfind]

/-- C3 (witness at `"get my rolebinding"`). -/
theorem c3_restricted_blocked_ka_witness :
    ∃ p ∈ restrictedPatternsKA, strContains (strLower "get my rolebinding") p = true ∧
      securityCheckNodeKA "get my rolebinding" =
        { error := some (kaAccessDeniedQ p), blocked := true,
          reason := some ("restricted_resource: " ++ p) } :=
  c3_restricted_blocked_ka "get my rolebinding" (by decide) (by decide)

/-! ## Claim C4 -/

/-- A concrete hostile LLM output naming a restricted resource type. -/
def llmRestrictedIntent : IntentData := { resource_type := some "secrets", action := some "list" }

/-- C4 (counterexample): in the live langgraph pipeline a parsed intent
with restricted `resource_type = "secrets"` does NOT fail the pipeline:
the validation error is swallowed, the deterministic fallback re-parses
the raw query `"list all pods"`, and the query proceeds through resolution
and execution with the substitute intent, ending in a successful
envelope. -/
theorem c4_counterexample :
    processQueryLG "list all pods" (Except.ok llmRestrictedIntent) listRaiseB execOkB
        (Except.ok "Summary") =
      { query := "list all pods",
        parsed_intent := some { resource_type := "pods", action := "list" },
        raw_response := some "POD OUTPUT", enhanced_response := some "Summary",
        success := true } := by
  decide

/-- C4 (amended): only the typed-API variant's `_parse_intent` makes the
re-run security check fatal, and only for LLM-path intents: a parsed
intent whose (defaulted) resource type is restricted, or — when the type
is clean — whose action is banned, yields the error envelope with the
corresponding access-denied / security-warning reason instead of any
intent; the langgraph variant instead swallows the validation error and
substitutes the fallback intent. -/
theorem c4_validate_fatal_ka (q : String) (d : IntentData) :
    ((d.resource_type.getD "pods") ∈ restrictedResourceTypesKA →
      parseIntentFromJsonKA q d =
        ParseOutcomeKA.errEnvelope (kaAccessDeniedQ (d.resource_type.getD "pods"))) ∧
    ((d.resource_type.getD "pods") ∉ restrictedResourceTypesKA →
      (d.action.getD "list") ∈ bannedActions →
      parseIntentFromJsonKA q d =
        ParseOutcomeKA.errEnvelope (kaSecurityWarning (d.action.getD "list"))) := by
  constructor
  · intro hmem
    have hc : restrictedResourceTypesKA.contains (d.resource_type.getD "pods") = true :=
      List.elem_iff.mpr hmem
    simp only [parseIntentFromJsonKA, validateIntentKA, hc, if_true,
      kaAccessDeniedQ_contains, Bool.true_or, if_pos]
  · intro hnmem hact
    have hc : restrictedResourceTypesKA.contains (d.resource_type.getD "pods") = false := by
      cases hcc : restrictedResourceTypesKA.contains (d.resource_type.getD "pods") with
      | false => rfl
      | true => exact absurd (List.elem_iff.mp hcc) hnmem
    have ha : bannedActions.contains (d.action.getD "list") = true :=
      List.elem_iff.mpr hact
    simp only [parseIntentFromJsonKA, validateIntentKA, hc, ha, Bool.false_eq_true, if_false,
      if_true, kaSecurityWarning_contains, Bool.or_true, if_pos]

/-- C4 (witness: hostile resource type, and hostile action, both fatal in
the KA variant). -/
theorem c4_validate_fatal_ka_witness :
    parseIntentFromJsonKA "list pods" llmRestrictedIntent =
      ParseOutcomeKA.errEnvelope (kaAccessDeniedQ "secrets") ∧
    parseIntentFromJsonKA "list pods" { resource_type := some "pods", action := some "delete" } =
      ParseOutcomeKA.errEnvelope (kaSecurityWarning "delete") :=
  ⟨(c4_validate_fatal_ka "list pods" llmRestrictedIntent).1 (by decide),
   (c4_validate_fatal_ka "list pods"
      { resource_type := some "pods", action := some "delete" }).2 (by decide) (by decide)⟩

/-! ## Claim C5 -/

/-- C5 (counterexample): the live langgraph pipeline's deterministic
fallback parser on `"pods in kube-system"` does NOT bind the namespace:
it yields `{pods, list, resource_name := null, namespace := null}`, not
the claimed `namespace = "kube-system"` (resource_name is indeed null). -/
theorem c5_counterexample :
    fallbackParseLG "pods in kube-system" =
      { resource_type := "pods", action := "list", resource_name := none,
        nspace := none, additional_flags := [] } ∧
    ¬ (fallbackParseLG "pods in kube-system").nspace = some "kube-system" := by
  decide

/-- C5 (amended): the typed-API variant's fallback parser on
`"pods in kube-system"` produces exactly the claimed intent
`{resource_type := pods, action := list, resource_name := null,
namespace := kube-system}` — in particular `resource_name` is not bound to
`"kube-system"` or any other token; the langgraph variant's simpler
fallback leaves the namespace null as well. -/
theorem c5_fallback_scenario_ka :
    fallbackParseKA "pods in kube-system" =
      { resource_type := "pods", action := "list", resource_name := none,
        nspace := some "kube-system", additional_flags := [] } := by
  decide

/-! ## Claim C6 -/

/-- C6 (counterexample): the live langgraph resolver has no exact-match
precedence (nor shortest tie-break or runner-up recording): with listed
pods `backend-x` and `back` and partial name `back`, the exact candidate
`back` is present yet the first substring match `backend-x` is selected. -/
theorem c6_counterexample :
    ((splitChar '\n' (strTrim "pod/backend-x\npod/back")).filter (fun r => r != "")).map
        (fun r => (splitChar '/' r).getLastD r) = ["backend-x", "back"] ∧
    strLower "back" = "back" ∧
    resolveResourceNameLG (some "back") "pods" none listBackendB = some "backend-x" ∧
    ¬ resolveResourceNameLG (some "back") "pods" none listBackendB = some "back" := by
  decide

/-- C6 (amended, typed-API variant): the matching strategies of
`_resolve_resource_names` satisfy the claimed precedence: an exact
case-insensitive match is selected immediately regardless of other
candidates; otherwise a non-empty prefix-match set is preferred over the
substring set; the selected name has minimal length among the collected
matches; and the recorded other matches are at most 4, all drawn from the
collected set. -/
theorem c6_resolution_precedence_ka (pname : String) (names : List String) :
    (∀ nm, names.find? (fun x => strLower x == pname) = some nm →
       resolveMatchKA pname names = MatchResultKA.exact nm ∧ nm ∈ names ∧ strLower nm = pname) ∧
    ((∀ nm ∈ names, ¬ strLower nm = pname) →
       preMatchesKA pname names ≠ [] →
       ∃ best, resolveMatchKA pname names =
           MatchResultKA.matched best (((preMatchesKA pname names).drop 1).take 4) ∧
         best ∈ preMatchesKA pname names ∧
         (∀ x ∈ preMatchesKA pname names, best.length ≤ x.length) ∧
         (((preMatchesKA pname names).drop 1).take 4).length ≤ 4 ∧
         (∀ o ∈ ((preMatchesKA pname names).drop 1).take 4, o ∈ preMatchesKA pname names)) ∧
    ((∀ nm ∈ names, ¬ strLower nm = pname) →
       preMatchesKA pname names = [] →
       subMatchesKA pname names ≠ [] →
       ∃ best, resolveMatchKA pname names =
           MatchResultKA.matched best (((subMatchesKA pname names).drop 1).take 4) ∧
         best ∈ subMatchesKA pname names ∧
         (∀ x ∈ subMatchesKA pname names, best.length ≤ x.length) ∧
         (((subMatchesKA pname names).drop 1).take 4).length ≤ 4 ∧
         (∀ o ∈ ((subMatchesKA pname names).drop 1).take 4, o ∈ subMatchesKA pname names)) := by
  refine ⟨?_, ?_, ?_⟩
  · intro nm hfind
    refine ⟨?_, List.mem_of_find?_eq_some hfind, ?_⟩
    · simp only [resolveMatchKA, hfind]
    · have := List.find?_some hfind
      exact eq_of_beq this
  · intro hex hpre
    have hfind : names.find? (fun x => strLower x == pname) = none := by
      apply List.find?_eq_none.mpr
      intro x hx
      simp only [beq_iff_eq]
      exact hex x hx
    have hpreE : (preMatchesKA pname names).isEmpty = false := by
      cases hp : preMatchesKA pname names with
      | nil => exact absurd hp hpre
      | cons a as => rfl
    obtain ⟨best, hmin, hmem, hle⟩ := minByLen_spec (preMatchesKA pname names) hpre
    refine ⟨best, ?_, hmem, hle, ?_, ?_⟩
    · simp only [resolveMatchKA, hfind, hpreE, Bool.false_eq_true, if_false, hmin]
    · rw [List.length_take]
      exact Nat.min_le_left _ _
    · intro o ho
      exact List.mem_of_mem_drop (List.mem_of_mem_take ho)
  · intro hex hpre hsub
    have hfind : names.find? (fun x => strLower x == pname) = none := by
      apply List.find?_eq_none.mpr
      intro x hx
      simp only [beq_iff_eq]
      exact hex x hx
    have hpreE : (preMatchesKA pname names).isEmpty = true := by rw [hpre]; rfl
    have hsubE : (subMatchesKA pname names).isEmpty = false := by
      cases hp : subMatchesKA pname names with
      | nil => exact absurd hp hsub
      | cons a as => rfl
    obtain ⟨best, hmin, hmem, hle⟩ := minByLen_spec (subMatchesKA pname names) hsub
    refine ⟨best, ?_, hmem, hle, ?_, ?_⟩
    · simp only [resolveMatchKA, hfind, hpreE, hsubE, Bool.false_eq_true, if_false, if_true, hmin]
    · rw [List.length_take]
      exact Nat.min_le_left _ _
    · intro o ho
      exact List.mem_of_mem_drop (List.mem_of_mem_take ho)

/-- C6 (witness: partial `back` against `["backender", "backend"]`, both
prefix matches, no exact match — the shorter `backend` is selected). -/
theorem c6_resolution_precedence_ka_witness :
    (∀ nm ∈ ["backender", "backend"], ¬ strLower nm = "back") ∧
    preMatchesKA "back" ["backender", "backend"] ≠ [] ∧
    (∃ best, resolveMatchKA "back" ["backender", "backend"] =
        MatchResultKA.matched best (((preMatchesKA "back" ["backender", "backend"]).drop 1).take 4) ∧
      best ∈ preMatchesKA "back" ["backender", "backend"] ∧
      (∀ x ∈ preMatchesKA "back" ["backender", "backend"], best.length ≤ x.length) ∧
      (((preMatchesKA "back" ["backender", "backend"]).drop 1).take 4).length ≤ 4 ∧
      (∀ o ∈ ((preMatchesKA "back" ["backender", "backend"]).drop 1).take 4,
         o ∈ preMatchesKA "back" ["backender", "backend"])) :=
  ⟨by decide, by decide,
   (c6_resolution_precedence_ka "back" ["backender", "backend"]).2.1 (by decide) (by decide)⟩

/-! ## Claim C7 -/

/-- C7 (counterexample): the live langgraph resolver skips resolution for
ANY name longer than 20 characters, hyphens or not: the 21-character,
hyphen-free name is left unchanged even though a listed candidate contains
it, while the claim's "clearly full" heuristic (length > 20 AND ≥ 3
hyphens) says resolution should have run. -/
theorem c7_counterexample :
    "aaaaaaaaaaaaaaaaaaaaa".length = 21 ∧
    "aaaaaaaaaaaaaaaaaaaaa".data.count '-' = 0 ∧
    strContains (strLower "aaaaaaaaaaaaaaaaaaaaa-x") (strLower "aaaaaaaaaaaaaaaaaaaaa") = true ∧
    resolveResourceNameLG (some "aaaaaaaaaaaaaaaaaaaaa") "pods" none listLongB =
      some "aaaaaaaaaaaaaaaaaaaaa" := by
  decide

/-- C7 (amended, typed-API variant): with a present, nonempty resource
name, `_resolve_resource_names` is skipped (the intent returned unchanged,
for every cluster behaviour) exactly when the lowered name is longer than
20 characters AND has at least 3 hyphens; otherwise it proceeds to the
live-list match phase.  The langgraph variant instead skips whenever the
name is longer than 20 characters. -/
theorem c7_skip_iff_ka (i : IntentKA) (n : String)
    (hn : i.resource_name = some n) (hne : n ≠ "") :
    (((strLower n).length > 20 ∧ (strLower n).data.count '-' ≥ 3) →
       ∀ listNames, resolveResourceNamesKA i listNames = i) ∧
    (¬ ((strLower n).length > 20 ∧ (strLower n).data.count '-' ≥ 3) →
       ∀ listNames, resolveResourceNamesKA i listNames =
         resolveWithClusterKA i (strLower n) listNames) := by
  have hb : (n == "") = false := beq_eq_false_iff_ne.mpr hne
  constructor
  · intro hc listNames
    have h1 : decide ((strLower n).length > 20) = true := decide_eq_true hc.1
    have h2 : decide ((strLower n).data.count '-' ≥ 3) = true := decide_eq_true hc.2
    simp only [resolveResourceNamesKA, hn, hb, Bool.false_eq_true, if_false,
      h1, h2, Bool.and_self, if_true]
  · intro hc listNames
    have hcond : (decide ((strLower n).length > 20) &&
        decide ((strLower n).data.count '-' ≥ 3)) = false := by
      by_cases hA : (strLower n).length > 20
      · have hB : ¬ (strLower n).data.count '-' ≥ 3 := fun hB => hc ⟨hA, hB⟩
        simp [hB]
      · simp [hA]
    simp only [resolveResourceNamesKA, hn, hb, Bool.false_eq_true, if_false, hcond]

/-- A cluster list behaviour for the C7 witness. -/
def kaListProbe : String → Option String → Except String (List String) :=
  fun _ _ => Except.ok ["aaaa-bbbb-cccc-ddddddd-x"]

/-- C7 (witness: a clearly-full name is skipped; a short name reaches the
match phase). -/
theorem c7_skip_iff_ka_witness :
    resolveResourceNamesKA
        { resource_type := "pods", action := "get",
          resource_name := some "aaaa-bbbb-cccc-ddddddd" } kaListProbe =
      { resource_type := "pods", action := "get",
        resource_name := some "aaaa-bbbb-cccc-ddddddd" } ∧
    resolveResourceNamesKA
        { resource_type := "pods", action := "get", resource_name := some "back" } kaListProbe =
      resolveWithClusterKA
        { resource_type := "pods", action := "get", resource_name := some "back" }
        (strLower "back") kaListProbe :=
  ⟨(c7_skip_iff_ka _ "aaaa-bbbb-cccc-ddddddd" rfl (by decide)).1 (by decide) kaListProbe,
   (c7_skip_iff_ka _ "back" rfl (by decide)).2 (by decide) kaListProbe⟩

/-! ## Claim C8 -/

/-- C8 (counterexample): the live langgraph executor does not enforce the
pods-only restriction for `logs`: with `resource_type = "services"` and a
resource name it builds `kubectl logs backend` (no local error) and runs
the backend call, storing its output. -/
theorem c8_counterexample :
    buildKubectlCommandLG
        { resource_type := "services", action := "logs", resource_name := some "backend" } =
      Except.ok ["kubectl", "logs", "backend"] ∧
    executeKubectlNodeLG execOkB
        { query := "logs of backend service",
          intent := some { resource_type := "services", action := "logs",
                           resource_name := some "backend" } } =
      { query := "logs of backend service",
        intent := some { resource_type := "services", action := "logs",
                         resource_name := some "backend" },
        kubectl_output := "POD OUTPUT" } :=
  ⟨rfl, rfl⟩

/-- C8 (amended, typed-API variant): for `action = logs`, a missing/empty
resource name yields the local invalid-request error, and — with a name —
a non-pods resource type yields the pods-only local error; both results
hold for EVERY cluster backend, i.e. no backend call is consulted.  The
CLI variant enforces only the missing-name half. -/
theorem c8_logs_preconditions_ka (i : IntentKA) (b : KABackend) :
    (i.action = "logs" → optTruthy i.resource_name = false →
       executeKubectlKA i b = "Error: Resource name required for logs command") ∧
    (i.action = "logs" → i.resource_type ≠ "pods" → optTruthy i.resource_name = true →
       executeKubectlKA i b = "Error: Logs can only be retrieved for pods") := by
  constructor
  · intro ha hn
    have ha' : (i.action == "logs") = true := by rw [ha]; rfl
    simp only [executeKubectlKA, ha', if_true, hn, Bool.not_false, if_true]
  · intro ha hrt hn
    have ha' : (i.action == "logs") = true := by rw [ha]; rfl
    have hrt' : (i.resource_type != "pods") = true := bne_iff_ne.mpr hrt
    simp only [executeKubectlKA, ha', if_true, hn, Bool.not_true, Bool.false_eq_true,
      if_false, hrt']

/-- A logs intent with no resource name (C8 witness input). -/
def c8IntentNoName : IntentKA := { resource_type := "pods", action := "logs", resource_name := none }

/-- A non-pods logs intent with a resource name (C8 witness input). -/
def c8IntentServices : IntentKA := { resource_type := "services", action := "logs", resource_name := some "backend" }

/-- C8 (witness: both halves at concrete intents against the probe
backend). -/
theorem c8_logs_preconditions_ka_witness :
    executeKubectlKA c8IntentNoName kaProbeBackend =
      "Error: Resource name required for logs command" ∧
    executeKubectlKA c8IntentServices kaProbeBackend =
      "Error: Logs can only be retrieved for pods" :=
  ⟨(c8_logs_preconditions_ka c8IntentNoName kaProbeBackend).1 rfl rfl,
   (c8_logs_preconditions_ka c8IntentServices kaProbeBackend).2 rfl (by decide) rfl⟩

/-! ## Claim C9 -/

/-- C9 (counterexample): the CLI (langgraph) variant's logs command is
built WITHOUT any tail/line-cap argument — `kubectl logs backend-pod-1`
verbatim — so logs are not capped to the last 100 lines in that backend
variant, contrary to the claim's "in both backend variants". -/
theorem c9_counterexample :
    buildKubectlCommandLG
        { resource_type := "pods", action := "logs", resource_name := some "backend-pod-1" } =
      Except.ok ["kubectl", "logs", "backend-pod-1"] := rfl

/-- C9 (amended): in the typed-API variant every logs execution calls the
backend with `tail_lines = 100` exactly — the result is the backend's
answer to the 100-line-capped request (or the wrapped `ApiException`
reason); the CLI variant requests logs uncapped. -/
theorem c9_logs_tail100_ka (i : IntentKA) (b : KABackend) (n : String)
    (h1 : i.action = "logs") (h2 : i.resource_type = "pods")
    (h3 : i.resource_name = some n) (h4 : n ≠ "") :
    executeKubectlKA i b =
      (match b.readPodLog n i.nspace 100 with
       | Except.ok logs => logs
       | Except.error r => "Error retrieving logs: " ++ r) := by
  have ha : (i.action == "logs") = true := by rw [h1]; rfl
  have hn : optTruthy i.resource_name = true := by
    rw [h3]; exact optTruthy_some_of_ne n h4
  have hrt : (i.resource_type != "pods") = false := by rw [h2]; rfl
  have hg : i.resource_name.getD "" = n := by rw [h3]; rfl
  simp only [executeKubectlKA, ha, if_true, hn, Bool.not_true, Bool.false_eq_true,
    if_false, hrt, hg]

/-- C9 (witness: the probe backend reports the tail argument it was called
with; an actual logs execution reports 100). -/
theorem c9_logs_tail100_ka_witness :
    executeKubectlKA { resource_type := "pods", action := "logs", resource_name := some "web" }
        kaProbeBackend = "tail lines = 100" := by
  rw [c9_logs_tail100_ka _ kaProbeBackend "web" rfl rfl rfl (by decide)]
  rfl

/-! ## Claim C10 -/

/-- The security node leaves the query field intact. -/
theorem securityCheckNodeLG_query (s : K8sStateLG) :
    (securityCheckNodeLG s).query = s.query := by
  unfold securityCheckNodeLG
  split
  · rfl
  · split
    · rfl
    · rfl

/-- The parse node leaves the query field intact. -/
theorem parseIntentNodeLG_query (llm : Except String IntentData) (s : K8sStateLG) :
    (parseIntentNodeLG llm s).query = s.query := by
  unfold parseIntentNodeLG
  split
  · split
    · rfl
    · rfl
  · rfl

/-- The resolve node leaves the query field intact. -/
theorem resolveResourcesNodeLG_query (rL : List String → SubprocOutcome) (s : K8sStateLG) :
    (resolveResourcesNodeLG rL s).query = s.query := by
  unfold resolveResourcesNodeLG
  split
  · rfl
  · split
    · rfl
    · rfl

/-- The execute node leaves the query field intact. -/
theorem executeKubectlNodeLG_query (rE : List String → ExecOutcome) (s : K8sStateLG) :
    (executeKubectlNodeLG rE s).query = s.query := by
  unfold executeKubectlNodeLG
  split
  · rfl
  · split
    · rfl
    · split
      · split
        · rfl
        · rfl
      · rfl
      · rfl

/-- The enhance node leaves the query field intact. -/
theorem enhanceResponseNodeLG_query (enh : Except String String) (s : K8sStateLG) :
    (enhanceResponseNodeLG enh s).query = s.query := by
  unfold enhanceResponseNodeLG
  split
  · rfl
  · split
    · rfl
    · rfl

/-- The error handler leaves the query field intact. -/
theorem errorHandlerNodeLG_query (s : K8sStateLG) :
    (errorHandlerNodeLG s).query = s.query := by
  unfold errorHandlerNodeLG
  split
  · rfl
  · rfl

/-- The workflow's final state carries the original query. -/
theorem runWorkflowLG_query (q : String) (llm : Except String IntentData)
    (rL : List String → SubprocOutcome) (rE : List String → ExecOutcome)
    (enh : Except String String) :
    ((runWorkflowLG q llm rL rE enh).1).query = q := by
  simp only [runWorkflowLG]
  split
  · rw [errorHandlerNodeLG_query, securityCheckNodeLG_query]
  · split
    · rw [errorHandlerNodeLG_query, parseIntentNodeLG_query, securityCheckNodeLG_query]
    · rw [enhanceResponseNodeLG_query, executeKubectlNodeLG_query,
        resolveResourcesNodeLG_query, parseIntentNodeLG_query, securityCheckNodeLG_query]

/-- Formatting preserves the query field. -/
theorem formatResponseLG_query (s : K8sStateLG) :
    (formatResponseLG s).query = s.query := by
  unfold formatResponseLG
  split
  · rfl
  · rfl

/-- In a formatted response, a null error field and a true success flag
coincide. -/
theorem formatResponseLG_error_iff_success (s : K8sStateLG) :
    (formatResponseLG s).error = none ↔ (formatResponseLG s).success = true := by
  unfold formatResponseLG
  by_cases h : optTruthy s.error
  · rw [if_pos h]
    cases he : s.error with
    | none => rw [he] at h; simp [optTruthy] at h
    | some m => simp
  · rw [if_neg h]
    simp

/-- C10 (counterexample): the typed-API variant's exception handler
converts a workflow exception into `success = false` with an error
message but WITHOUT any suggestion — the claim's "error message and
suggestion" fails there (the langgraph handler does attach one). -/
theorem c10_counterexample :
    processQueryKAFrom "list pods" (Except.error "boom") =
      { query := "list pods", error := some "An unexpected error occurred: boom",
        success := false } ∧
    (processQueryKAFrom "list pods" (Except.error "boom")).suggestion = none := by
  exact ⟨rfl, rfl⟩

/-- C10 (amended): for every query and every collaborator behaviour, both
`process_query` implementations return an envelope (they are total — no
exception escapes to the caller) that carries the original query; in the
langgraph variant the success flag is true exactly when the error field is
absent, and a workflow exception is converted into `success = false` with
an `Internal error:` message AND a suggestion; the typed-API variant's
handler produces the error message but no suggestion. -/
theorem c10_envelope_total_lg :
    (∀ (q : String) (llm : Except String IntentData)
       (rL : List String → SubprocOutcome) (rE : List String → ExecOutcome)
       (enh : Except String String),
       (processQueryLG q llm rL rE enh).query = q ∧
       ((processQueryLG q llm rL rE enh).error = none ↔
         (processQueryLG q llm rL rE enh).success = true)) ∧
    (∀ (q e : String), processQueryLGFrom q (Except.error e) =
       { query := q, error := some ("Internal error: " ++ e),
         suggestion := some "Please try rephrasing your query or contact support.",
         success := false }) ∧
    (∀ (q e : String), processQueryKAFrom q (Except.error e) =
       { query := q, error := some ("An unexpected error occurred: " ++ e),
         success := false }) := by
  refine ⟨?_, ?_, ?_⟩
  · intro q llm rL rE enh
    rcases hp : runWorkflowLG q llm rL rE enh with ⟨s, t⟩
    have hq := runWorkflowLG_query q llm rL rE enh
    rw [hp] at hq
    have hred : processQueryLG q llm rL rE enh = formatResponseLG s := by
      show processQueryLGFrom q (Except.ok (runWorkflowLG q llm rL rE enh)) = _
      rw [hp]
      rfl
    rw [hred]
    exact ⟨(formatResponseLG_query s).trans hq, formatResponseLG_error_iff_success s⟩
  · intro q e
    rfl
  · intro q e
    rfl

/-- C10 (witness: envelope invariants at a concrete run; handler equation
at a concrete exception). -/
theorem c10_envelope_total_lg_witness :
    (processQueryLG "hi" (Except.error "x") listRaiseB execOkB (Except.ok "e")).query = "hi" ∧
    processQueryLGFrom "hi" (Except.error "down") =
      { query := "hi", error := some "Internal error: down",
        suggestion := some "Please try rephrasing your query or contact support.",
        success := false } :=
  ⟨(c10_envelope_total_lg.1 "hi" (Except.error "x") listRaiseB execOkB (Except.ok "e")).1,
   c10_envelope_total_lg.2.1 "hi" "down"⟩
